import Mathlib

/-!
Shallow embedding of the signature-checked dictionary core of the zvariant
crate: `src/zvariant/src/dict.rs` (the `Dict` container and its `HashMap`
conversions) and `src/zvariant/src/basic.rs` (the `Basic` signature registry).

The external collaborators (`Signature`, `Value`, `Error`) are not part of the
two source files; they are modelled from the spec (sections 3, 6, 7 and 9 of
spec.md) as a plain string, a closed tagged union of primitive values, and a
single-variant error type.
-/

set_option autoImplicit false

namespace Zvariant

/-- Modelled from the spec: the external `Signature` type is "a compact string
describing a value's wire shape"; its own parsing and validation are out of
scope, and the dictionary only constructs, stores and compares signatures, so
it is embedded as its underlying string. -/
abbrev Signature := String

/-- Mirrors `Signature::from_str_unchecked`: trusts the string, no validation. -/
def Signature.from_str_unchecked (s : String) : Signature := s

/-- Mirrors `Signature::from_string_unchecked`: trusts the string, no validation. -/
def Signature.from_string_unchecked (s : String) : Signature := s

/-- Modelled from the spec: the external error type, of which the single
"IncorrectType" condition is the only kind relevant to this core (spec section 7). -/
inductive Error where
  | IncorrectType
deriving DecidableEq

instance {ε α : Type} [DecidableEq ε] [DecidableEq α] : DecidableEq (Except ε α) := fun a b =>
  match a, b with
  | .error x, .error y =>
    if h : x = y then .isTrue (by rw [h]) else .isFalse (by intro hh; cases hh; exact h rfl)
  | .error _, .ok _ => .isFalse (by intro hh; cases hh)
  | .ok _, .error _ => .isFalse (by intro hh; cases hh)
  | .ok x, .ok y =>
    if h : x = y then .isTrue (by rw [h]) else .isFalse (by intro hh; cases hh; exact h rfl)

/-- Modelled from the spec: the external dynamic `Value` type, "a runtime
tagged union capable of holding any primitive or container value along with
its own signature" (spec glossary), embedded as the closed tagged union of the
primitive kinds the registry covers (spec section 9 prescribes exactly this
reimplementation); the floating-point kind is omitted since no claim involves
a float-valued dynamic value. -/
inductive Value where
  | U8 (n : Nat)
  | Bool (b : Bool)
  | I16 (n : Int)
  | U16 (n : Nat)
  | I32 (n : Int)
  | U32 (n : Nat)
  | I64 (n : Int)
  | U64 (n : Nat)
  | Str (s : String)
deriving DecidableEq

/-- Modelled from the spec: `signature_of(value) -> Signature`, reporting a
dynamic value's wire signature (spec section 6), with the tag taken from the
registry table of spec section 4.1. Mirrors `Value::value_signature`. -/
def Value.value_signature : Value → Signature
  | .U8 _ => "y"
  | .Bool _ => "b"
  | .I16 _ => "n"
  | .U16 _ => "q"
  | .I32 _ => "i"
  | .U32 _ => "u"
  | .I64 _ => "x"
  | .U64 _ => "t"
  | .Str _ => "s"

/-- Mirrors the `Type` trait: `fn signature() -> Signature<'static>`. -/
class TypeImpl (α : Type) where
  signature : Signature

/-- The `K::signature()` call of the source, with the type made explicit. -/
def signatureOf (α : Type) [i : TypeImpl α] : Signature := i.signature

/-- Modelled from the spec: `wrap<T>(native: T) -> DynamicValue`, lifting a
natively-typed value into the dynamic representation (spec section 6).
Mirrors the `Into<Value>` bound of the source. -/
class IntoValue (α : Type) where
  into : α → Value

/-- Mirrors `Value::new`. -/
def Value.new {α : Type} [IntoValue α] (x : α) : Value := IntoValue.into x

/-- Modelled from the spec: `extract<T>(value) -> Result<T, Error>`, the
consuming fallible typed extraction (spec section 6). Mirrors the
`TryFrom<Value>` bound of the source. -/
class TryFromValue (α : Type) where
  try_from : Value → Except Error α

/-- Modelled from the spec: `downcast_ref<T>(value) -> Option<&T>`, a typed
view that is `None` on type mismatch (spec section 6). Mirrors the
`&K: TryFrom<&Value>` bound used by `Dict::get`. -/
class FromValueRef (α : Type) where
  downcast_ref : Value → Option α

/-- Mirrors `Value::downcast_ref`. -/
def Value.downcast_ref {α : Type} [FromValueRef α] (v : Value) : Option α :=
  FromValueRef.downcast_ref v

/-! The `Basic` registry of `src/zvariant/src/basic.rs`. Each Rust
`impl Basic for T` block becomes a descriptor value `T.basic`; the three
aliased types forward to their target's constants exactly as the source does. -/

/-- Mirrors the `Basic` trait of basic.rs: the three per-type constants. -/
structure Basic where
  SIGNATURE_CHAR : Char
  SIGNATURE_STR : String
  ALIGNMENT : Nat
deriving DecidableEq

def u8.basic : Basic := ⟨'y', "y", 1⟩

def i16.basic : Basic := ⟨'n', "n", 2⟩

/-- No i8 type in D-Bus/GVariant; the source forwards to i16's constants. -/
def i8.basic : Basic :=
  ⟨i16.basic.SIGNATURE_CHAR, i16.basic.SIGNATURE_STR, i16.basic.ALIGNMENT⟩

def bool.basic : Basic := ⟨'b', "b", 4⟩

def u16.basic : Basic := ⟨'q', "q", 2⟩

def i32.basic : Basic := ⟨'i', "i", 4⟩

def u32.basic : Basic := ⟨'u', "u", 4⟩

def i64.basic : Basic := ⟨'x', "x", 8⟩

def u64.basic : Basic := ⟨'t', "t", 8⟩

def f64.basic : Basic := ⟨'d', "d", 8⟩

/-- No f32 type in D-Bus/GVariant; the source forwards to f64's constants. -/
def f32.basic : Basic :=
  ⟨f64.basic.SIGNATURE_CHAR, f64.basic.SIGNATURE_STR, f64.basic.ALIGNMENT⟩

def str.basic : Basic := ⟨'s', "s", 4⟩

def StringOwned.basic : Basic := ⟨'s', "s", 4⟩

/-- The char impl forwards to the string-by-reference constants. -/
def char.basic : Basic :=
  ⟨str.basic.SIGNATURE_CHAR, str.basic.SIGNATURE_STR, str.basic.ALIGNMENT⟩

/-! Concrete native types used to instantiate the generic dictionary API:
the Rust `u32` (carrier only, no arithmetic is performed on it) and the Rust
string types, embedded as Lean's `String`. The `TypeImpl` instances mirror the
`impl_type!` macro of basic.rs: `Signature::from_str_unchecked(SIGNATURE_STR)`. -/

/-- The Rust `u32` native type as an opaque carrier of its numeric payload. -/
structure u32 where
  val : Nat
deriving DecidableEq

instance : TypeImpl u32 := ⟨Signature.from_str_unchecked u32.basic.SIGNATURE_STR⟩

instance : TypeImpl String := ⟨Signature.from_str_unchecked StringOwned.basic.SIGNATURE_STR⟩

instance : IntoValue u32 := ⟨fun x => .U32 x.val⟩

instance : IntoValue String := ⟨fun s => .Str s⟩

instance : TryFromValue u32 :=
  ⟨fun v => match v with
    | .U32 n => .ok ⟨n⟩
    | _ => .error .IncorrectType⟩

instance : TryFromValue String :=
  ⟨fun v => match v with
    | .Str s => .ok s
    | _ => .error .IncorrectType⟩

instance : FromValueRef u32 :=
  ⟨fun v => match v with
    | .U32 n => some ⟨n⟩
    | _ => none⟩

instance : FromValueRef String :=
  ⟨fun v => match v with
    | .Str s => some s
    | _ => none⟩

/-! The dictionary of `src/zvariant/src/dict.rs`. -/

/-- Mirrors `struct DictEntry`: one key/value pair of dynamic values. -/
structure DictEntry where
  key : Value
  value : Value
deriving DecidableEq

/-- Mirrors `struct Dict`: the entry sequence plus the two declared signatures. -/
structure Dict where
  entries : List DictEntry
  key_signature : Signature
  value_signature : Signature
deriving DecidableEq

/-- Mirrors `Dict::new`: an empty dictionary with the given signatures. -/
def Dict.new (key_signature : Signature) (value_signature : Signature) : Dict :=
  ⟨[], key_signature, value_signature⟩

/-- Mirrors `Dict::append`: push a pre-wrapped entry after checking both
signatures; mutation of `self` becomes returning the updated dictionary. -/
def Dict.append (d : Dict) (key : Value) (value : Value) : Except Error Dict :=
  if key.value_signature ≠ d.key_signature ∨ value.value_signature ≠ d.value_signature then
    .error .IncorrectType
  else
    .ok { d with entries := d.entries ++ [⟨key, value⟩] }

/-- Mirrors `Dict::add`: push a natively-typed entry after checking the
Registry signatures of `K` and `V` against the declared ones. -/
def Dict.add {K V : Type} [TypeImpl K] [IntoValue K] [TypeImpl V] [IntoValue V]
    (d : Dict) (key : K) (value : V) : Except Error Dict :=
  if signatureOf K ≠ d.key_signature ∨ signatureOf V ≠ d.value_signature then
    .error .IncorrectType
  else
    .ok { d with entries := d.entries ++ [⟨Value.new key, Value.new value⟩] }

/-- The loop body of `Dict::get`: scan the entry list in order, downcasting
each stored key (error on failure), and on the first key equal to the request
downcast and return the stored value (error on failure). -/
def Dict.getEntries {K V : Type} [DecidableEq K] [FromValueRef K] [FromValueRef V]
    (key : K) : List DictEntry → Except Error (Option V)
  | [] => .ok none
  | e :: rest =>
    match (e.key.downcast_ref : Option K) with
    | none => .error .IncorrectType
    | some entry_key =>
      if entry_key = key then
        match (e.value.downcast_ref : Option V) with
        | none => .error .IncorrectType
        | some v => .ok (some v)
      else
        Dict.getEntries key rest

/-- Mirrors `Dict::get`. -/
def Dict.get {K V : Type} [DecidableEq K] [FromValueRef K] [FromValueRef V]
    (d : Dict) (key : K) : Except Error (Option V) :=
  Dict.getEntries key d.entries

/-- Mirrors `Dict::signature`: format the stored key and value signatures into
the array-of-dict-entry form, an "a" followed by the brace-enclosed pair. -/
def Dict.signature (d : Dict) : Signature :=
  Signature.from_string_unchecked ("a\x7b" ++ d.key_signature ++ d.value_signature ++ "\x7d")

/-! The `HashMap` conversions of dict.rs. A native hash map is embedded as an
association list whose keys are pairwise distinct, with `insert` the
replace-or-append operation of a native map. -/

/-- A native map, embedded as its entry list (keys unique by convention). -/
abbrev HashMap (K V : Type) := List (K × V)

/-- Native-map `insert`: replace the value of an existing key, else append. -/
def HashMap.insert {K V : Type} [DecidableEq K] :
    HashMap K V → K → V → HashMap K V
  | [], k, v => [(k, v)]
  | (k0, v0) :: rest, k, v =>
    if k0 = k then (k0, v) :: rest else (k0, v0) :: HashMap.insert rest k v

/-- The loop body of `TryFrom<Dict> for HashMap`: extract each entry's key and
value in order, propagating the first error, inserting into the accumulator. -/
def hashMapOfEntries {K V : Type} [DecidableEq K] [TryFromValue K] [TryFromValue V] :
    List DictEntry → HashMap K V → Except Error (HashMap K V)
  | [], map => .ok map
  | e :: rest, map =>
    match (TryFromValue.try_from e.key : Except Error K) with
    | .error err => .error err
    | .ok k =>
      match (TryFromValue.try_from e.value : Except Error V) with
      | .error err => .error err
      | .ok v => hashMapOfEntries rest (HashMap.insert map k v)

/-- Mirrors `impl TryFrom<Dict> for HashMap`: start from the default (empty)
map and insert every extracted entry, all-or-nothing. -/
def HashMap.try_from {K V : Type} [DecidableEq K] [TryFromValue K] [TryFromValue V]
    (v : Dict) : Except Error (HashMap K V) :=
  hashMapOfEntries v.entries []

/-- Mirrors `impl From<HashMap> for Dict`: wrap every pair into dynamic values
in iteration order and take the declared signatures from the Registry. -/
def Dict.fromHashMap {K V : Type} [TypeImpl K] [IntoValue K] [TypeImpl V] [IntoValue V]
    (value : HashMap K V) : Dict :=
  ⟨value.map (fun p => ⟨Value.new p.1, Value.new p.2⟩), signatureOf K, signatureOf V⟩

/-! Conformance: the data-model invariant of spec section 3. -/

/-- Every entry's key and value signatures agree with the declared ones. -/
def Dict.conforms (d : Dict) : Prop :=
  ∀ e ∈ d.entries,
    e.key.value_signature = d.key_signature ∧ e.value.value_signature = d.value_signature

instance (d : Dict) : Decidable d.conforms := by
  unfold Dict.conforms
  exact List.decidableBAll _ _

/-- Lawfulness of the spec-modelled wrapping: the dynamic value produced by
wrapping a native value reports the native type's Registry signature (spec
sections 4.1 and 6). Holds for every concrete instance defined here. -/
class LawfulIntoValue (α : Type) [IntoValue α] [TypeImpl α] : Prop where
  into_signature : ∀ x : α, (IntoValue.into x : Value).value_signature = signatureOf α

instance : LawfulIntoValue u32 := ⟨fun _ => rfl⟩

instance : LawfulIntoValue String := ⟨fun _ => rfl⟩

/-- Lawfulness of the spec-modelled downcast: the typed view succeeds exactly
when the dynamic value's reported signature is the native type's Registry
signature ("None on type mismatch", spec section 6). -/
class LawfulDowncast (α : Type) [FromValueRef α] [TypeImpl α] : Prop where
  downcast_isSome :
    ∀ v : Value, (v.downcast_ref : Option α).isSome =
      (v.value_signature == signatureOf α)

instance : LawfulDowncast u32 := by
  constructor
  intro v
  cases v <;> rfl

instance : LawfulDowncast String := by
  constructor
  intro v
  cases v <;> rfl

/-- Lawfulness of the spec-modelled extraction: extracting a wrapped native
value returns it (the typed extraction of spec section 6 inverts wrapping).
Holds for every concrete instance defined here. -/
class LawfulValueConv (α : Type) [IntoValue α] [TryFromValue α] : Prop where
  try_from_into : ∀ x : α, (TryFromValue.try_from (IntoValue.into x) : Except Error α) = .ok x

instance : LawfulValueConv u32 := ⟨fun _ => rfl⟩

instance : LawfulValueConv String := ⟨fun _ => rfl⟩

end Zvariant

namespace Zvariant

theorem getEntries_skip {K V : Type} [DecidableEq K] [FromValueRef K] [FromValueRef V]
    (key : K) (pre rest : List DictEntry)
    (h : ∀ e2 ∈ pre, ∃ k2, (e2.key.downcast_ref : Option K) = some k2 ∧ k2 ≠ key) :
    (Dict.getEntries key (pre ++ rest) : Except Error (Option V))
      = Dict.getEntries key rest := by
  induction pre with
  | nil => rfl
  | cons e pre ih =>
    obtain ⟨k2, hk2, hne⟩ := h e (List.mem_cons_self e pre)
    rw [List.cons_append, Dict.getEntries, hk2]
    simp only [if_neg hne]
    exact ih fun e2 he2 => h e2 (List.mem_cons_of_mem e he2)

theorem getEntries_none {K V : Type} [DecidableEq K] [FromValueRef K] [FromValueRef V]
    (key : K) (entries : List DictEntry)
    (h : ∀ e2 ∈ entries, ∃ k2, (e2.key.downcast_ref : Option K) = some k2 ∧ k2 ≠ key) :
    (Dict.getEntries key entries : Except Error (Option V)) = .ok none := by
  have := getEntries_skip (V := V) key entries [] h
  rwa [List.append_nil] at this

/-- Claim C1: every entry of a dictionary satisfies the signature conformance
invariant, and the invariant is preserved by every operation that can add
entries: `new` yields an empty conforming dictionary, `append` pushes only
after both dynamic-signature checks pass, and `add` pushes only after both
Registry-signature checks pass. -/
theorem Dict.conforms_invariant :
    (∀ ks vs : Signature, (Dict.new ks vs).conforms) ∧
    (∀ (d : Dict) (k v : Value) (d2 : Dict),
      d.conforms → d.append k v = .ok d2 → d2.conforms) ∧
    (∀ (K V : Type) [TypeImpl K] [IntoValue K] [TypeImpl V] [IntoValue V]
        [LawfulIntoValue K] [LawfulIntoValue V] (d : Dict) (k : K) (v : V) (d2 : Dict),
      d.conforms → d.add k v = .ok d2 → d2.conforms) := by
  refine ⟨?_, ?_, ?_⟩
  · intro ks vs e he
    cases he
  · intro d k v d2 hconf happ
    rw [Dict.append] at happ
    split at happ
    · cases happ
    · next hcond =>
      cases happ
      intro e he
      rcases List.mem_append.mp he with h1 | h2
      · exact hconf e h1
      · have he2 : e = ⟨k, v⟩ := by simpa using h2
        subst he2
        push_neg at hcond
        exact hcond
  · intro K V _ _ _ _ _ _ d k v d2 hconf hadd
    rw [Dict.add] at hadd
    split at hadd
    · cases hadd
    · next hcond =>
      cases hadd
      intro e he
      rcases List.mem_append.mp he with h1 | h2
      · exact hconf e h1
      · have he2 : e = ⟨Value.new k, Value.new v⟩ := by simpa using h2
        subst he2
        push_neg at hcond
        refine ⟨?_, ?_⟩
        · show (Value.new k).value_signature = d.key_signature
          rw [Value.new, LawfulIntoValue.into_signature, hcond.1]
        · show (Value.new v).value_signature = d.value_signature
          rw [Value.new, LawfulIntoValue.into_signature, hcond.2]

/-- Witness for C1: a successful `append` and a successful `add`, each landing
in a conforming dictionary. -/
theorem Dict.conforms_invariant_w :
    (Dict.mk [⟨.Str "a", .U32 1⟩] "s" "u").conforms ∧
    (Dict.mk [⟨.Str "b", .U32 2⟩] "s" "u").conforms :=
  ⟨Dict.conforms_invariant.2.1 (Dict.new "s" "u") (.Str "a") (.U32 1)
      (Dict.mk [⟨.Str "a", .U32 1⟩] "s" "u") (by decide) rfl,
    Dict.conforms_invariant.2.2 String u32 (Dict.new "s" "u") "b" ⟨2⟩
      (Dict.mk [⟨.Str "b", .U32 2⟩] "s" "u") (by decide) rfl⟩

/-- Claim C2: `append` succeeds and pushes exactly the one new entry at the end,
leaving both stored signatures unchanged, iff the key's and value's reported
signatures equal the declared ones; otherwise it returns `IncorrectType` (the
dictionary is untouched: the error carries no updated dictionary). -/
theorem Dict.append_spec (d : Dict) (key value : Value) :
    (d.append key value
        = .ok ⟨d.entries ++ [⟨key, value⟩], d.key_signature, d.value_signature⟩
      ↔ key.value_signature = d.key_signature ∧ value.value_signature = d.value_signature) ∧
    (key.value_signature ≠ d.key_signature ∨ value.value_signature ≠ d.value_signature →
      d.append key value = .error .IncorrectType) := by
  constructor
  · constructor
    · intro h
      by_contra hc
      rw [not_and_or] at hc
      rw [Dict.append, if_pos (by simpa using hc)] at h
      cases h
    · intro h
      rw [Dict.append, if_neg]
      rintro (h1 | h2)
      · exact h1 h.1
      · exact h2 h.2
  · intro h
    rw [Dict.append, if_pos h]

/-- Witness for C2: a matching pair is pushed at the end; a mismatched key is
rejected with `IncorrectType`. -/
theorem Dict.append_spec_w :
    (Dict.new "s" "u").append (.Str "a") (.U32 1)
        = .ok (Dict.mk [⟨.Str "a", .U32 1⟩] "s" "u") ∧
    (Dict.new "s" "u").append (.U32 2) (.U32 1) = .error .IncorrectType :=
  ⟨(Dict.append_spec (Dict.new "s" "u") (.Str "a") (.U32 1)).1.mpr (by decide),
    (Dict.append_spec (Dict.new "s" "u") (.U32 2) (.U32 1)).2 (Or.inl (by decide))⟩

/-- Claim C3: `add` succeeds and appends the pair wrapped as dynamic values iff
the Registry signatures of `K` and `V` equal the declared ones, else it returns
`IncorrectType`; in particular, on a dictionary declared with key signature "i",
`add("x", 5u32)` fails with `IncorrectType` (the dictionary, being a value, is
untouched: the error carries no updated dictionary). -/
theorem Dict.add_spec :
    (∀ (K V : Type) [TypeImpl K] [IntoValue K] [TypeImpl V] [IntoValue V]
        (d : Dict) (key : K) (value : V),
      (signatureOf K = d.key_signature ∧ signatureOf V = d.value_signature →
        d.add key value
          = .ok ⟨d.entries ++ [⟨Value.new key, Value.new value⟩],
              d.key_signature, d.value_signature⟩) ∧
      (signatureOf K ≠ d.key_signature ∨ signatureOf V ≠ d.value_signature →
        d.add key value = .error .IncorrectType)) ∧
    (Dict.new "i" "u").add "x" (⟨5⟩ : u32) = .error .IncorrectType := by
  constructor
  · intro K V _ _ _ _ d key value
    constructor
    · intro h
      rw [Dict.add, if_neg]
      rintro (h1 | h2)
      · exact h1 h.1
      · exact h2 h.2
    · intro h
      rw [Dict.add, if_pos h]
  · rfl

/-- Witness for C3: a matching `add` pushes the wrapped pair; a `u32` value on
a dictionary declared over "s" values is rejected. -/
theorem Dict.add_spec_w :
    (Dict.new "s" "u").add "a" (⟨1⟩ : u32)
        = .ok (Dict.mk [⟨.Str "a", .U32 1⟩] "s" "u") ∧
    (Dict.new "s" "s").add "a" (⟨1⟩ : u32) = .error .IncorrectType :=
  ⟨(Dict.add_spec.1 String u32 (Dict.new "s" "u") "a" ⟨1⟩).1 (by decide),
    (Dict.add_spec.1 String u32 (Dict.new "s" "s") "a" ⟨1⟩).2 (Or.inr (by decide))⟩

/-- Claim C6: the dictionary's signature is always the string `a`, opening
brace, key signature, value signature, closing brace, for any entry list. -/
theorem Dict.signature_spec (entries : List DictEntry) (ks vs : Signature) :
    (Dict.mk entries ks vs).signature = "a\x7b" ++ ks ++ vs ++ "\x7d" := rfl

/-- Claim C7: the Registry constants equal the authoritative table exactly; the
signature string of every registered type has length 1 and equals its tag as a
one-character string; the three aliased types carry their alias target's
constants exactly. -/
theorem Basic.registry_table :
    (u8.basic = ⟨'y', "y", 1⟩ ∧ bool.basic = ⟨'b', "b", 4⟩ ∧ i16.basic = ⟨'n', "n", 2⟩ ∧
      u16.basic = ⟨'q', "q", 2⟩ ∧ i32.basic = ⟨'i', "i", 4⟩ ∧ u32.basic = ⟨'u', "u", 4⟩ ∧
      i64.basic = ⟨'x', "x", 8⟩ ∧ u64.basic = ⟨'t', "t", 8⟩ ∧ f64.basic = ⟨'d', "d", 8⟩ ∧
      str.basic = ⟨'s', "s", 4⟩ ∧ StringOwned.basic = ⟨'s', "s", 4⟩) ∧
    (∀ b ∈ [u8.basic, i8.basic, bool.basic, i16.basic, u16.basic, i32.basic, u32.basic,
        i64.basic, u64.basic, f32.basic, f64.basic, str.basic, StringOwned.basic, char.basic],
      b.SIGNATURE_STR.length = 1 ∧ b.SIGNATURE_STR = b.SIGNATURE_CHAR.toString ∧
        b.ALIGNMENT ∈ [1, 2, 4, 8]) ∧
    (i8.basic = i16.basic ∧ f32.basic = f64.basic ∧ char.basic = str.basic) := by
  decide

/-- Witness for C7: the length-1 and tag-equality facts evaluated at `u8`. -/
theorem Basic.registry_table_w :
    u8.basic.SIGNATURE_STR.length = 1 ∧
    u8.basic.SIGNATURE_STR = u8.basic.SIGNATURE_CHAR.toString ∧
    u8.basic.ALIGNMENT ∈ [1, 2, 4, 8] :=
  Basic.registry_table.2.1 u8.basic (by decide)

/-- Claim C10: converting an empty dictionary to a native map succeeds with the
empty map whatever the declared signatures are, and more generally the
conversion never consults the stored signature fields. -/
theorem HashMap.try_from_empty :
    (∀ (K V : Type) [DecidableEq K] [TryFromValue K] [TryFromValue V] (ks vs : Signature),
      HashMap.try_from (K := K) (V := V) (Dict.new ks vs) = .ok []) ∧
    (∀ (K V : Type) [DecidableEq K] [TryFromValue K] [TryFromValue V]
        (entries : List DictEntry) (ks vs ks2 vs2 : Signature),
      HashMap.try_from (K := K) (V := V) (Dict.mk entries ks vs)
        = HashMap.try_from (K := K) (V := V) (Dict.mk entries ks2 vs2)) := by
  constructor
  · intro K V _ _ _ ks vs
    rfl
  · intro K V _ _ _ entries ks vs ks2 vs2
    rfl

end Zvariant

namespace Zvariant

/-- Claim C4: `get` scans in insertion order and returns the value of the first
entry whose downcast key equals the request; on the `[("a",1),("b",2),("a",3)]`
scenario built by appends, `get "a"` returns `1`, not `3`; and `get` returns
`Ok(None)` when no entry's key matches after scanning all entries. -/
theorem Dict.get_first_match :
    (∀ (K V : Type) [DecidableEq K] [FromValueRef K] [FromValueRef V]
        (pre : List DictEntry) (e : DictEntry) (post : List DictEntry)
        (ks vs : Signature) (key : K) (v : V),
      (∀ e2 ∈ pre, ∃ k2, (e2.key.downcast_ref : Option K) = some k2 ∧ k2 ≠ key) →
      e.key.downcast_ref = some key →
      e.value.downcast_ref = some v →
      (Dict.mk (pre ++ e :: post) ks vs).get key = .ok (some v)) ∧
    (∀ (K V : Type) [DecidableEq K] [FromValueRef K] [FromValueRef V]
        (entries : List DictEntry) (ks vs : Signature) (key : K),
      (∀ e2 ∈ entries, ∃ k2, (e2.key.downcast_ref : Option K) = some k2 ∧ k2 ≠ key) →
      (Dict.mk entries ks vs).get key = (.ok none : Except Error (Option V))) ∧
    (((Dict.new "s" "u").append (.Str "a") (.U32 1)).bind
        (fun d => (d.append (.Str "b") (.U32 2)).bind
          (fun d2 => d2.append (.Str "a") (.U32 3)))
      = .ok (Dict.mk [⟨.Str "a", .U32 1⟩, ⟨.Str "b", .U32 2⟩, ⟨.Str "a", .U32 3⟩] "s" "u")) ∧
    ((Dict.mk [⟨.Str "a", .U32 1⟩, ⟨.Str "b", .U32 2⟩, ⟨.Str "a", .U32 3⟩] "s" "u").get "a"
      = .ok (some (⟨1⟩ : u32))) ∧
    ((Dict.mk [⟨.Str "a", .U32 1⟩, ⟨.Str "b", .U32 2⟩, ⟨.Str "a", .U32 3⟩] "s" "u").get
        (K := String) (V := u32) "c" = .ok none) := by
  refine ⟨?_, ?_, rfl, rfl, rfl⟩
  · intro K V _ _ _ pre e post ks vs key v hpre hkey hval
    show Dict.getEntries key (pre ++ e :: post) = _
    rw [getEntries_skip key pre _ hpre, Dict.getEntries]
    simp [hkey, hval]
  · intro K V _ _ _ entries ks vs key h
    show Dict.getEntries key entries = _
    exact getEntries_none key entries h

/-- Witness for C4: the first-match branch evaluated with one non-matching
entry in front of the matching one. -/
theorem Dict.get_first_match_w :
    (Dict.mk [⟨.Str "b", .U32 2⟩, ⟨.Str "a", .U32 1⟩] "s" "u").get "a"
      = .ok (some (⟨1⟩ : u32)) :=
  Dict.get_first_match.1 String u32 [⟨.Str "b", .U32 2⟩] ⟨.Str "a", .U32 1⟩ [] "s" "u" "a" ⟨1⟩
    (by intro e2 he2; simp at he2; subst he2; exact ⟨"b", rfl, by decide⟩) rfl rfl

/-- Claim C5: on a dictionary satisfying the data-model conformance invariant,
if any stored key fails to downcast to the requested native key type then the
whole `get` call fails with `IncorrectType` (with the spec-modelled law that
downcast success is determined by signature agreement), and a value-downcast
failure on the first matching entry likewise fails the call. -/
theorem Dict.get_strict_downcast :
    (∀ (K V : Type) [DecidableEq K] [FromValueRef K] [FromValueRef V]
        [TypeImpl K] [LawfulDowncast K] (d : Dict) (key : K),
      d.conforms →
      (∃ e ∈ d.entries, (e.key.downcast_ref : Option K) = none) →
      d.get (V := V) key = .error .IncorrectType) ∧
    (∀ (K V : Type) [DecidableEq K] [FromValueRef K] [FromValueRef V]
        (pre : List DictEntry) (e : DictEntry) (post : List DictEntry)
        (ks vs : Signature) (key : K),
      (∀ e2 ∈ pre, ∃ k2, (e2.key.downcast_ref : Option K) = some k2 ∧ k2 ≠ key) →
      e.key.downcast_ref = some key →
      (e.value.downcast_ref : Option V) = none →
      (Dict.mk (pre ++ e :: post) ks vs).get (V := V) key = .error .IncorrectType) := by
  constructor
  · intro K V _ _ _ _ _ d key hconf hex
    obtain ⟨e, he, hnone⟩ := hex
    have hsig : d.key_signature ≠ signatureOf K := by
      intro heq
      have h2 := LawfulDowncast.downcast_isSome (α := K) e.key
      rw [hnone, (hconf e he).1, heq] at h2
      simp at h2
    match hd : d.entries with
    | [] => rw [hd] at he; cases he
    | e0 :: rest =>
      have h0 := (hconf e0 (by rw [hd]; exact List.mem_cons_self e0 rest)).1
      have hnone0 : (e0.key.downcast_ref : Option K) = none := by
        have h2 := LawfulDowncast.downcast_isSome (α := K) e0.key
        rw [h0] at h2
        cases hc : (e0.key.downcast_ref : Option K) with
        | none => rfl
        | some k2 =>
          rw [hc] at h2
          simp at h2
          exact absurd h2 hsig
      show Dict.getEntries key d.entries = _
      rw [hd, Dict.getEntries, hnone0]
  · intro K V _ _ _ pre e post ks vs key hpre hkey hval
    show Dict.getEntries key (pre ++ e :: post) = _
    rw [getEntries_skip key pre _ hpre, Dict.getEntries]
    simp [hkey, hval]

/-- Witness for C5: a conforming dictionary whose keys are not strings fails a
string lookup wholesale, and a value-downcast failure on the matching entry
likewise errors. -/
theorem Dict.get_strict_downcast_w :
    (Dict.mk [⟨.U32 7, .U32 2⟩] "u" "u").get (V := u32) "a" = .error .IncorrectType ∧
    (Dict.mk [⟨.Str "b", .U32 2⟩, ⟨.Str "a", .Str "x"⟩] "s" "u").get (V := u32) "a"
      = .error .IncorrectType :=
  ⟨Dict.get_strict_downcast.1 String u32 (Dict.mk [⟨.U32 7, .U32 2⟩] "u" "u") "a"
      (by decide) ⟨⟨.U32 7, .U32 2⟩, List.mem_cons_self _ _, rfl⟩,
    Dict.get_strict_downcast.2 String u32 [⟨.Str "b", .U32 2⟩] ⟨.Str "a", .Str "x"⟩ [] "s" "u" "a"
      (by intro e2 he2; simp at he2; subst he2; exact ⟨"b", rfl, by decide⟩) rfl rfl⟩

theorem HashMap.insert_not_mem {K V : Type} [DecidableEq K] (m : HashMap K V) (k : K) (v : V)
    (h : k ∉ m.map Prod.fst) : HashMap.insert m k v = m ++ [(k, v)] := by
  induction m with
  | nil => rfl
  | cons p rest ih =>
    obtain ⟨k0, v0⟩ := p
    simp only [List.map_cons, List.mem_cons, not_or] at h
    rw [HashMap.insert, if_neg (fun he => h.1 he.symm), ih h.2, List.cons_append]

theorem hashMapOfEntries_roundtrip {K V : Type} [DecidableEq K]
    [IntoValue K] [TryFromValue K] [IntoValue V] [TryFromValue V]
    [LawfulValueConv K] [LawfulValueConv V]
    (m : HashMap K V) (acc : HashMap K V)
    (h : ((acc ++ m).map Prod.fst).Nodup) :
    hashMapOfEntries (m.map fun p => ⟨Value.new p.1, Value.new p.2⟩) acc = .ok (acc ++ m) := by
  induction m generalizing acc with
  | nil => simp [hashMapOfEntries]
  | cons p rest ih =>
    obtain ⟨k, v⟩ := p
    have hk := LawfulValueConv.try_from_into (α := K) k
    have hv := LawfulValueConv.try_from_into (α := V) v
    simp only [List.map_cons, hashMapOfEntries, Value.new, hk, hv]
    have hnotmem : k ∉ acc.map Prod.fst := by
      rw [List.map_append, List.nodup_append] at h
      intro hmem
      exact h.2.2 hmem (by simp)
    rw [HashMap.insert_not_mem acc k v hnotmem]
    have h2 : (((acc ++ [(k, v)]) ++ rest).map Prod.fst).Nodup := by
      rwa [List.append_assoc]
    have h3 := ih (acc ++ [(k, v)]) h2
    simp only [Value.new] at h3
    rw [h3, List.append_assoc]
    rfl

/-- Claim C8: converting a native map with pairwise-distinct keys into a
dictionary and back into a native map of the same key and value types succeeds
and returns the original map, for key and value types whose wrapping and
extraction are mutually inverse (the Registry/extraction contracts). -/
theorem Dict.hashmap_round_trip :
    ∀ (K V : Type) [DecidableEq K] [TypeImpl K] [IntoValue K] [TryFromValue K]
      [TypeImpl V] [IntoValue V] [TryFromValue V] [LawfulValueConv K] [LawfulValueConv V]
      (m : HashMap K V), (m.map Prod.fst).Nodup →
      HashMap.try_from (K := K) (V := V) (Dict.fromHashMap m) = .ok m := by
  intro K V _ _ _ _ _ _ _ _ _ m h
  show hashMapOfEntries (m.map _) [] = _
  exact hashMapOfEntries_roundtrip m [] (by simpa using h)

/-- Witness for C8: a two-entry string-to-u32 map survives the round trip. -/
theorem Dict.hashmap_round_trip_w :
    HashMap.try_from (K := String) (V := u32)
        (Dict.fromHashMap ([("a", ⟨1⟩), ("b", ⟨2⟩)] : HashMap String u32))
      = .ok [("a", ⟨1⟩), ("b", ⟨2⟩)] :=
  Dict.hashmap_round_trip String u32 [("a", ⟨1⟩), ("b", ⟨2⟩)] (by decide)

theorem hashMapOfEntries_error {K V : Type} [DecidableEq K] [TryFromValue K] [TryFromValue V]
    (pre : List DictEntry) (e : DictEntry) (post : List DictEntry)
    (herr : (TryFromValue.try_from e.key : Except Error K) = .error .IncorrectType ∨
      ((∃ k, (TryFromValue.try_from e.key : Except Error K) = .ok k) ∧
        (TryFromValue.try_from e.value : Except Error V) = .error .IncorrectType)) :
    ∀ acc : HashMap K V,
      (∀ e2 ∈ pre, ∃ k v, (TryFromValue.try_from e2.key : Except Error K) = .ok k ∧
        (TryFromValue.try_from e2.value : Except Error V) = .ok v) →
      hashMapOfEntries (pre ++ e :: post) acc = .error .IncorrectType := by
  induction pre with
  | nil =>
    intro acc _
    rw [List.nil_append, hashMapOfEntries]
    rcases herr with h | ⟨⟨k, hk⟩, hv⟩
    · rw [h]
    · rw [hk, hv]
  | cons e2 pre ih =>
    intro acc hpre
    obtain ⟨k, v, hk, hv⟩ := hpre e2 (List.mem_cons_self e2 pre)
    rw [List.cons_append, hashMapOfEntries, hk, hv]
    exact ih _ (fun e3 he3 => hpre e3 (List.mem_cons_of_mem e2 he3))

/-- Claim C9: the dictionary-to-map conversion is all-or-nothing: whenever the
entries before some position all extract and that position's key (or, the key
extracting, its value) fails, the whole conversion returns the IncorrectType
error and no map; on full success duplicate keys resolve by later entries
overwriting earlier ones, as in the `[("a",1),("b",2),("a",3)]` scenario. -/
theorem Dict.try_from_all_or_nothing :
    (∀ (K V : Type) [DecidableEq K] [TryFromValue K] [TryFromValue V]
        (pre : List DictEntry) (e : DictEntry) (post : List DictEntry) (ks vs : Signature),
      (∀ e2 ∈ pre, ∃ k v, (TryFromValue.try_from e2.key : Except Error K) = .ok k ∧
          (TryFromValue.try_from e2.value : Except Error V) = .ok v) →
      ((TryFromValue.try_from e.key : Except Error K) = .error .IncorrectType ∨
        ((∃ k, (TryFromValue.try_from e.key : Except Error K) = .ok k) ∧
          (TryFromValue.try_from e.value : Except Error V) = .error .IncorrectType)) →
      HashMap.try_from (K := K) (V := V) (Dict.mk (pre ++ e :: post) ks vs)
        = .error .IncorrectType) ∧
    (HashMap.try_from (K := String) (V := u32)
        (Dict.mk [⟨.Str "a", .U32 1⟩, ⟨.Str "b", .U32 2⟩, ⟨.Str "a", .U32 3⟩] "s" "u")
      = .ok [("a", ⟨3⟩), ("b", ⟨2⟩)]) := by
  constructor
  · intro K V _ _ _ pre e post ks vs hpre herr
    exact hashMapOfEntries_error pre e post herr [] hpre
  · rfl

/-- Witness for C9: one good entry, then an entry whose key is not a string:
the conversion of the whole dictionary errors even though a later good entry
follows. -/
theorem Dict.try_from_all_or_nothing_w :
    HashMap.try_from (K := String) (V := u32)
        (Dict.mk [⟨.Str "a", .U32 1⟩, ⟨.U32 7, .U32 2⟩, ⟨.Str "b", .U32 5⟩] "s" "u")
      = .error .IncorrectType :=
  Dict.try_from_all_or_nothing.1 String u32 [⟨.Str "a", .U32 1⟩] ⟨.U32 7, .U32 2⟩
    [⟨.Str "b", .U32 5⟩] "s" "u"
    (by intro e2 he2; simp at he2; subst he2; exact ⟨"a", ⟨1⟩, rfl, rfl⟩)
    (Or.inl rfl)

end Zvariant
